import Mathlib

/-!
# Verification of `label_coco_to_img_and_split.py`

Shallow embedding of the COCO label-conversion script:

* `create_binary_mask` — rasterizes one flat polygon coordinate list into a
  binary `height × width` grid (the `np.array(...).reshape((-1,2))` step fails
  on an odd coordinate count; `cv2.fillPoly` is an external library routine
  modelled as an even-odd point-in-polygon fill).
* `process_coco_dataset` — builds the lookup dictionaries, routes unlabeled
  images to the `clean` directory, and for each annotated image either skips
  it (several distinct category ids) or copies it into its class directory and
  writes the OR-combined mask.

Python dictionaries are modelled as insertion-ordered association lists
(updating an existing key keeps its position, Python 3.7+ semantics); the
mutable `defaultdict(int)` of per-class counts is modelled as a total function
`String → Nat`; filesystem side effects (`shutil.copy2`, `cv2.imwrite`) are
recorded as event lists; a Python exception (`ValueError` from `reshape`,
`KeyError` from a dictionary lookup) is an `Except.error` that aborts the run.
-/

/-- A numpy `height × width` `uint8` grid, as nested lists of its cell values. -/
abbrev Mask := List (List Nat)

/-- One record of the COCO `images` list. -/
structure ImageRec where
  id : Nat
  file_name : String
  height : Nat
  width : Nat
  deriving Repr, DecidableEq

/-- One record of the COCO `annotations` list; `segmentation` is a list of
polygons, each a flat list of already-truncated integer coordinates. -/
structure AnnRec where
  image_id : Nat
  category_id : Nat
  segmentation : List (List Int)
  deriving Repr, DecidableEq

/-- One record of the COCO `categories` list. -/
structure CatRec where
  id : Nat
  name : String
  deriving Repr, DecidableEq

/-- The decoded JSON input. -/
structure CocoData where
  images : List ImageRec
  categories : List CatRec
  annotations : List AnnRec
  deriving Repr, DecidableEq

/-- Python `dict` assignment `d[k] = v`: update in place when the key exists
(keeping its position), otherwise append at the end. -/
def dinsert {α : Type} : List (Nat × α) → Nat → α → List (Nat × α)
  | [], k, v => [(k, v)]
  | (k2, v2) :: rest, k, v =>
    if k2 = k then (k2, v) :: rest else (k2, v2) :: dinsert rest k v

/-- Python `dict` lookup `d[k]`; `none` is a `KeyError`. -/
def dlookup {α : Type} : List (Nat × α) → Nat → Option α
  | [], _ => none
  | (k2, v) :: rest, k => if k2 = k then some v else dlookup rest k

/-- Python `k in d`. -/
def dmem {α : Type} (d : List (Nat × α)) (k : Nat) : Bool :=
  (dlookup d k).isSome

/-- Model of `np.array(segmentation, dtype=np.int32).reshape((-1, 2))`: pair up the flat
coordinate list; `none` models the `ValueError` raised on an odd length. -/
def reshapePairs : List Int → Option (List (Int × Int))
  | [] => some []
  | [_] => none
  | x :: y :: rest => (reshapePairs rest).map (fun l => (x, y) :: l)

/-- Whether a horizontal ray from pixel `(px, py)` crosses the closed edge
`(x1, y1)-(x2, y2)` (standard even-odd crossing test). -/
def edgeCrosses (px py x1 y1 x2 y2 : Int) : Bool :=
  if y1 ≤ py ∧ py < y2 then
    (px - x1) * (y2 - y1) < (x2 - x1) * (py - y1)
  else if y2 ≤ py ∧ py < y1 then
    (px - x1) * (y2 - y1) > (x2 - x1) * (py - y1)
  else false

/-- The closed edge cycle of a vertex list. -/
def closedEdges : List (Int × Int) → List ((Int × Int) × (Int × Int))
  | [] => []
  | p :: rest => (p :: rest).zip (rest ++ [p])

/-- Modelled from the spec: `cv2.fillPoly` is an external library routine, and
the spec prescribes a standard point-in-polygon fill (even-odd); this is the
even-odd membership test for pixel `(px, py)`. -/
def inPolygon (pts : List (Int × Int)) (px py : Int) : Bool :=
  ((closedEdges pts).filter
    (fun e => edgeCrosses px py e.1.1 e.1.2 e.2.1 e.2.2)).length % 2 == 1

/-- Value of the filled grid at row `i`, column `j`. -/
def fillPolyCell (pts : List (Int × Int)) (i j : Nat) : Nat :=
  if inPolygon pts (Int.ofNat j) (Int.ofNat i) then 1 else 0

/-- Modelled from the spec: the grid produced by `cv2.fillPoly(mask, [poly], 1)`
on an all-zero `height × width` grid. -/
def fillPoly (pts : List (Int × Int)) (height width : Nat) : Mask :=
  (List.range height).map (fun i => (List.range width).map (fun j => fillPolyCell pts i j))

/-- Model of `np.zeros((height, width), dtype=np.uint8)`. -/
def zerosMask (height width : Nat) : Mask :=
  List.replicate height (List.replicate width 0)

/-- The Python exceptions the script can raise, by site:
`malformedPolygon` is the `ValueError` of `reshape` on an odd-length
coordinate list; `danglingImage` is a `KeyError` on `image_id_to_file` or
`image_id_to_size`; `danglingCategory` is a `KeyError` on `category_map`;
`emptyAnnSet` is the `KeyError` of `set().pop()` (unreachable from a built
index, whose values are non-empty). -/
inductive Err where
  | malformedPolygon : List Int → Err
  | danglingImage : Nat → Err
  | danglingCategory : Nat → Err
  | emptyAnnSet : Err
  deriving Repr, DecidableEq

/-- Source lines 10-17: `create_binary_mask(segmentation, height, width)`. -/
def create_binary_mask (segmentation : List Int) (height width : Nat) :
    Except Err Mask :=
  match reshapePairs segmentation with
  | none => Except.error (Err.malformedPolygon segmentation)
  | some pts => Except.ok (fillPoly pts height width)

/-- Model of `cv2.bitwise_or` on two grids, cell-wise `Nat.lor` (on 0/1 cells this is
logical OR). -/
def bitwise_or (a b : Mask) : Mask :=
  List.zipWith (List.zipWith Nat.lor) a b

/-- All polygons of all of an image's annotation records, in iteration order
(the nested `for ann in annotations: for segmentation in ann['segmentation']`). -/
def segsOf (anns : List AnnRec) : List (List Int) :=
  (anns.map (fun a => a.segmentation)).flatten

/-- Source lines 88-93: start from `np.zeros((height, width))` and OR in the
rasterization of every polygon of every annotation record. -/
def buildCombinedMask (anns : List AnnRec) (height width : Nat) :
    Except Err Mask :=
  List.foldlM
    (fun acc seg => (create_binary_mask seg height width).map (fun m => bitwise_or acc m))
    (zerosMask height width) (segsOf anns)

/-- Source line 98: `combined_mask * 255`. -/
def scale255 (m : Mask) : Mask :=
  m.map (fun row => row.map (fun v => v * 255))

/-- Model of `os.path.splitext(name)[0]` for a file name with a dot-separated
extension (source line 96). -/
def splitextBase (s : String) : String :=
  let parts := s.splitOn "."
  if parts.length ≤ 1 then s else String.intercalate "." parts.dropLast

/-- The per-image decision recorded by the partitioning loop. -/
inductive Outcome where
  | unlabeled : String → Outcome
  | assignedToClass : String → String → Mask → Outcome
  | skippedMultiClass : String → Outcome
  deriving Repr, DecidableEq

/-- One `shutil.copy2(src, dst)` call; paths are component lists
(`os.path.join` is list append). -/
structure CopyEvent where
  src : List String
  dst : List String
  deriving Repr, DecidableEq

/-- Observable state threaded through `process_coco_dataset`:
the `class_counts` defaultdict, the image copies and mask writes issued so
far, and the per-image decisions taken so far. -/
structure RunResult where
  class_counts : String → Nat
  copies : List CopyEvent
  maskWrites : List (List String × Mask)
  outcomes : List Outcome

/-- Model of `class_counts[c] += 1` on a `defaultdict(int)`. -/
def incr (f : String → Nat) (c : String) : String → Nat :=
  fun x => if x = c then f x + 1 else f x

/-- Line 28: `{img['id']: img['file_name'] for img in coco_data['images']}`. -/
def buildFileMap (images : List ImageRec) : List (Nat × String) :=
  images.foldl (fun d img => dinsert d img.id img.file_name) []

/-- Line 29: the size dictionary comprehension
`{img['id']: (img['height'], img['width']) for img in coco_data['images']}`. -/
def buildSizeMap (images : List ImageRec) : List (Nat × (Nat × Nat)) :=
  images.foldl (fun d img => dinsert d img.id (img.height, img.width)) []

/-- Line 32: `{cat['id']: cat['name'] for cat in coco_data['categories']}`. -/
def buildCategoryMap (categories : List CatRec) : List (Nat × String) :=
  categories.foldl (fun d cat => dinsert d cat.id cat.name) []

/-- Lines 35-40: group annotations by `image_id`, keeping first-seen key order
and per-key arrival order. -/
def buildImageAnns (annotations : List AnnRec) : List (Nat × List AnnRec) :=
  annotations.foldl
    (fun d ann => dinsert d ann.image_id (((dlookup d ann.image_id).getD []) ++ [ann]))
    []

/-- The four lookup structures of lines 28-40. -/
structure Lookups where
  image_id_to_file : List (Nat × String)
  image_id_to_size : List (Nat × (Nat × Nat))
  category_map : List (Nat × String)
  image_anns : List (Nat × List AnnRec)

/-- Lines 47-54: one iteration of the unlabeled-image loop.  An image whose id
is a key of the grouped-annotation dictionary is left for the second loop;
otherwise it is copied to `<output>/clean/<file_name>` and the `clean` count
is incremented. -/
def processUnlabeled (output_base_dir images_dir : String)
    (image_anns : List (Nat × List AnnRec)) (st : RunResult) (img : ImageRec) :
    RunResult :=
  if dmem image_anns img.id then st
  else
    { st with
      copies := st.copies ++
        [⟨[images_dir, img.file_name], [output_base_dir, "clean", img.file_name]⟩],
      class_counts := incr st.class_counts "clean",
      outcomes := st.outcomes ++ [Outcome.unlabeled img.file_name] }

/-- Lines 57-100: one iteration of the annotated-image loop.  The multi-class
check precedes everything; its skip notice reads `image_id_to_file[image_id]`
(line 63), so a dangling image id raises there.  For a single-class image the
category name is resolved (line 67, a `KeyError` when the id is not a key),
the image is copied and its class count incremented (lines 78-84), and only
then is the combined mask built and written (lines 87-98). -/
def processLabeled (output_base_dir images_dir : String) (lk : Lookups)
    (st : RunResult) (entry : Nat × List AnnRec) : Except Err RunResult :=
  let image_id := entry.1
  let anns := entry.2
  let category_ids := (anns.map (fun a => a.category_id)).dedup
  if category_ids.length > 1 then
    match dlookup lk.image_id_to_file image_id with
    | none => Except.error (Err.danglingImage image_id)
    | some fn =>
      Except.ok { st with outcomes := st.outcomes ++ [Outcome.skippedMultiClass fn] }
  else
    match category_ids with
    | [] => Except.error Err.emptyAnnSet
    | category_id :: _ =>
      match dlookup lk.category_map category_id with
      | none => Except.error (Err.danglingCategory category_id)
      | some category_name =>
        match dlookup lk.image_id_to_file image_id with
        | none => Except.error (Err.danglingImage image_id)
        | some image_filename =>
          let st1 : RunResult :=
            { st with
              copies := st.copies ++
                [⟨[images_dir, image_filename],
                  [output_base_dir, category_name, "images", image_filename]⟩],
              class_counts := incr st.class_counts category_name }
          match dlookup lk.image_id_to_size image_id with
          | none => Except.error (Err.danglingImage image_id)
          | some hw =>
            match buildCombinedMask anns hw.1 hw.2 with
            | Except.error e => Except.error e
            | Except.ok combined =>
              Except.ok
                { st1 with
                  maskWrites := st1.maskWrites ++
                    [([output_base_dir, category_name, "masks",
                       splitextBase image_filename ++ ".png"], scale255 combined)],
                  outcomes := st1.outcomes ++
                    [Outcome.assignedToClass image_filename category_name combined] }

/-- The whole unlabeled-image loop (lines 47-54). -/
def unlabeledPhase (output_base_dir images_dir : String)
    (image_anns : List (Nat × List AnnRec)) (images : List ImageRec)
    (st : RunResult) : RunResult :=
  images.foldl (processUnlabeled output_base_dir images_dir image_anns) st

/-- The whole annotated-image loop (lines 57-100); an exception in any
iteration aborts the remainder. -/
def labeledPhase (output_base_dir images_dir : String) (lk : Lookups)
    (entries : List (Nat × List AnnRec)) (st : RunResult) :
    Except Err RunResult :=
  List.foldlM (processLabeled output_base_dir images_dir lk) st entries

/-- The run state before any image is processed: empty `defaultdict(int)`,
no side effects. -/
def initState : RunResult :=
  { class_counts := fun _ => 0, copies := [], maskWrites := [], outcomes := [] }

/-- The lookup structures built by lines 28-40. -/
def mkLookups (coco : CocoData) : Lookups :=
  { image_id_to_file := buildFileMap coco.images,
    image_id_to_size := buildSizeMap coco.images,
    category_map := buildCategoryMap coco.categories,
    image_anns := buildImageAnns coco.annotations }

/-- Source lines 19-112: `process_coco_dataset(json_path, images_dir, output_base_dir)`
as a pure function of the decoded JSON. -/
def process_coco_dataset (coco : CocoData) (images_dir output_base_dir : String) :
    Except Err RunResult :=
  labeledPhase output_base_dir images_dir (mkLookups coco)
    (mkLookups coco).image_anns
    (unlabeledPhase output_base_dir images_dir (mkLookups coco).image_anns
      coco.images initState)

/-! ## Derived observation vocabulary -/

/-- The count key an outcome contributes to: unlabeled images use the
`clean` key, assigned images the category name, skips nothing. -/
def destClass : Outcome → Option String
  | Outcome.unlabeled _ => some "clean"
  | Outcome.assignedToClass _ cn _ => some cn
  | Outcome.skippedMultiClass _ => none

/-- Number of outcomes counted under key `c`. -/
def countOutcomes (l : List Outcome) (c : String) : Nat :=
  (l.filter (fun o => destClass o == some c)).length

/-- The `shutil.copy2` events each decision issues. -/
def outcomeCopies (output_base_dir images_dir : String) : Outcome → List CopyEvent
  | Outcome.unlabeled fn =>
    [⟨[images_dir, fn], [output_base_dir, "clean", fn]⟩]
  | Outcome.assignedToClass fn cn _ =>
    [⟨[images_dir, fn], [output_base_dir, cn, "images", fn]⟩]
  | Outcome.skippedMultiClass _ => []

/-- The `cv2.imwrite` events each decision issues. -/
def outcomeMasks (output_base_dir : String) : Outcome → List (List String × Mask)
  | Outcome.assignedToClass fn cn m =>
    [([output_base_dir, cn, "masks", splitextBase fn ++ ".png"], scale255 m)]
  | _ => []

/-- All copy events of a decision sequence. -/
def copiesOf (output_base_dir images_dir : String) (l : List Outcome) :
    List CopyEvent :=
  (l.map (outcomeCopies output_base_dir images_dir)).flatten

/-- All mask-write events of a decision sequence. -/
def maskWritesOf (output_base_dir : String) (l : List Outcome) :
    List (List String × Mask) :=
  (l.map (outcomeMasks output_base_dir)).flatten

/-- The decisions of the unlabeled-image loop: one `Unlabeled` decision per
image record whose id is not a key of the grouped-annotation dictionary. -/
def unlabeledOutcomes (image_anns : List (Nat × List AnnRec))
    (images : List ImageRec) : List Outcome :=
  (images.filter (fun i => !(dmem image_anns i.id))).map
    (fun i => Outcome.unlabeled i.file_name)

/-- Whether an outcome is an `Unlabeled` decision. -/
def isUnlabeledB : Outcome → Bool
  | Outcome.unlabeled _ => true
  | _ => false

/-- Whether an outcome assigns its image to class `c`. -/
def isAssignedToB (c : String) : Outcome → Bool
  | Outcome.assignedToClass _ cn _ => cn == c
  | _ => false


/-! ## The accumulation loop as a standalone operation -/

/-- The loop of lines 88-93 applied to a list of already-rasterized grids:
start from the all-zero grid and OR each grid in, left to right. -/
def accumulate (masks : List Mask) (height width : Nat) : Mask :=
  masks.foldl bitwise_or (zerosMask height width)

/-- Whether an `Except` value is a success. -/
def exceptIsOk {ε α : Type} : Except ε α → Bool
  | Except.ok _ => true
  | Except.error _ => false

/-! ## Concrete fixtures used by witness and counterexample theorems -/

/-- Lookups for one image `1 ↦ a.jpg` of size 1×1 and one category `7 ↦ cat`. -/
def wLk : Lookups := ⟨[(1, "a.jpg")], [(1, (1, 1))], [(7, "cat")], []⟩

/-- Same lookups with an empty category dictionary. -/
def wLkNoCat : Lookups := ⟨[(1, "a.jpg")], [(1, (1, 1))], [], []⟩

/-- One annotation of category 7 with one triangle covering pixel (0,0). -/
def wAnnsSame : List AnnRec := [⟨1, 7, [[0, 0, 1, 0, 1, 1]]⟩]

/-- Two annotations with distinct category ids 7 and 8. -/
def wAnnsMulti : List AnnRec :=
  [⟨1, 7, [[0, 0, 1, 0, 1, 1]]⟩, ⟨1, 8, [[0, 0, 0, 1, 1, 1]]⟩]

/-- One annotation whose polygon has an odd flat coordinate count. -/
def wAnnsOdd : List AnnRec := [⟨1, 7, [[0, 0, 0]]⟩]

/-- Expected state after assigning `a.jpg` to class `cat` from `initState`. -/
def wStA : RunResult :=
  { class_counts := incr (fun _ => 0) "cat",
    copies := [⟨["i", "a.jpg"], ["o", "cat", "images", "a.jpg"]⟩],
    maskWrites := [(["o", "cat", "masks", splitextBase "a.jpg" ++ ".png"],
      scale255 [[1]])],
    outcomes := [Outcome.assignedToClass "a.jpg" "cat" [[1]]] }

/-- Expected state after the multi-class skip of `a.jpg` from `initState`. -/
def wStSkip : RunResult :=
  { class_counts := fun _ => 0, copies := [], maskWrites := [],
    outcomes := [Outcome.skippedMultiClass "a.jpg"] }

/-- Two images, one category; `a.jpg` carries two annotation records with
three polygons in total, all of category 7; `b.jpg` is unannotated. -/
def wCoco9 : CocoData :=
  { images := [⟨1, "a.jpg", 1, 1⟩, ⟨2, "b.jpg", 1, 1⟩],
    categories := [⟨7, "cat"⟩],
    annotations := [⟨1, 7, [[0, 0, 0, 1, 1, 1]]⟩,
                    ⟨1, 7, [[0, 0, 1, 0, 1, 1], [0, 0, 0, 1, 1, 1]]⟩] }

/-- The result of running `wCoco9`. -/
def wRes9 : RunResult :=
  { class_counts := incr (incr (fun _ => 0) "clean") "cat",
    copies := [⟨["i", "b.jpg"], ["o", "clean", "b.jpg"]⟩,
               ⟨["i", "a.jpg"], ["o", "cat", "images", "a.jpg"]⟩],
    maskWrites := [(["o", "cat", "masks", splitextBase "a.jpg" ++ ".png"],
      scale255 [[1]])],
    outcomes := [Outcome.unlabeled "b.jpg",
                 Outcome.assignedToClass "a.jpg" "cat" [[1]]] }

/-- Two images and a category literally named `clean`: `a.jpg` is assigned to
it while `b.jpg` is unannotated, so both are routed under `<output>/clean`. -/
def wCoco10 : CocoData :=
  { images := [⟨1, "a.jpg", 1, 1⟩, ⟨2, "b.jpg", 1, 1⟩],
    categories := [⟨7, "clean"⟩],
    annotations := [⟨1, 7, [[0, 0, 1, 0, 1, 1]]⟩] }

/-- The result of running `wCoco10`. -/
def wRes10 : RunResult :=
  { class_counts := incr (incr (fun _ => 0) "clean") "clean",
    copies := [⟨["i", "b.jpg"], ["o", "clean", "b.jpg"]⟩,
               ⟨["i", "a.jpg"], ["o", "clean", "images", "a.jpg"]⟩],
    maskWrites := [(["o", "clean", "masks", splitextBase "a.jpg" ++ ".png"],
      scale255 [[1]])],
    outcomes := [Outcome.unlabeled "b.jpg",
                 Outcome.assignedToClass "a.jpg" "clean" [[1]]] }

/-- Input with a duplicate image id and a duplicate category id. -/
def cocoDup : CocoData :=
  { images := [⟨1, "a.jpg", 2, 2⟩, ⟨1, "b.jpg", 2, 2⟩],
    categories := [⟨5, "x"⟩, ⟨5, "y"⟩],
    annotations := [] }

/-- An annotation whose `image_id` 99 and `category_id` 42 match no record. -/
def wAnnDangling : AnnRec := ⟨99, 42, [[0, 0, 1, 0, 1, 1]]⟩

/-! ## Grid access, dimensions, and binary values -/

/-- Cell value at row `i`, column `j` (reads as 0 outside the grid; every use
below is inside proven bounds or about grids padded consistently). -/
def cellOf (m : Mask) (i j : Nat) : Nat :=
  (m.getD i []).getD j 0

/-- A grid has exactly `height` rows, each of length `width`. -/
def hasDims (m : Mask) (height width : Nat) : Prop :=
  m.length = height ∧ ∀ row ∈ m, row.length = width

instance (m : Mask) (h w : Nat) : Decidable (hasDims m h w) := by
  unfold hasDims; infer_instance


lemma ok_bind {ε α β : Type} (a : α) (f : α → Except ε β) :
    (Except.ok a >>= f) = f a := rfl

lemma error_bind {ε α β : Type} (e : ε) (f : α → Except ε β) :
    ((Except.error e : Except ε α) >>= f) = Except.error e := rfl

lemma map_ok {ε α β : Type} (a : α) (f : α → β) :
    (Except.ok a : Except ε α).map f = Except.ok (f a) := rfl

lemma map_error {ε α β : Type} (e : ε) (f : α → β) :
    (Except.error e : Except ε α).map f = Except.error e := rfl

lemma pure_eq_ok {ε α : Type} (a : α) : (pure a : Except ε α) = Except.ok a := rfl

lemma hasDims_zeros (h w : Nat) : hasDims (zerosMask h w) h w := by
  refine ⟨by simp [zerosMask], fun row hrow => ?_⟩
  rw [List.eq_of_mem_replicate hrow]
  simp

lemma cellOf_zeros (h w i j : Nat) : cellOf (zerosMask h w) i j = 0 := by
  simp only [cellOf, zerosMask, List.getD_eq_getElem?_getD, List.getElem?_replicate]
  split <;> simp [List.getElem?_replicate]
  split <;> simp

lemma hasDims_fillPoly (pts : List (Int × Int)) (h w : Nat) :
    hasDims (fillPoly pts h w) h w := by
  refine ⟨by simp [fillPoly], fun row hrow => ?_⟩
  simp only [fillPoly, List.mem_map] at hrow
  obtain ⟨i, _, hrow⟩ := hrow
  simp [← hrow]

lemma cellOf_fillPoly (pts : List (Int × Int)) (h w i j : Nat)
    (hi : i < h) (hj : j < w) :
    cellOf (fillPoly pts h w) i j = fillPolyCell pts i j := by
  simp only [cellOf, fillPoly, List.getD_eq_getElem?_getD, List.getElem?_map,
    List.getElem?_range hi, List.getElem?_range hj, Option.map_some',
    Option.getD_some]

lemma fillPolyCell_le_one (pts : List (Int × Int)) (i j : Nat) :
    fillPolyCell pts i j ≤ 1 := by
  unfold fillPolyCell; split <;> simp

lemma cellOf_le_one_of_rows (m : Mask)
    (hm : ∀ row ∈ m, ∀ v ∈ row, v ≤ 1) (i j : Nat) :
    cellOf m i j ≤ 1 := by
  unfold cellOf
  rcases Nat.lt_or_ge i m.length with hi | hi
  · rw [show m.getD i [] = m[i] by
      rw [List.getD_eq_getElem?_getD, List.getElem?_eq_getElem hi, Option.getD_some]]
    rcases Nat.lt_or_ge j (m[i].length) with hj | hj
    · rw [show (m[i]).getD j 0 = m[i][j] by
        rw [List.getD_eq_getElem?_getD, List.getElem?_eq_getElem hj, Option.getD_some]]
      exact hm _ (List.getElem_mem hi) _ (List.getElem_mem hj)
    · rw [List.getD_eq_default _ _ hj]; simp
  · rw [List.getD_eq_default _ _ hi]; simp

lemma cellOf_fillPoly_le_one (pts : List (Int × Int)) (h w i j : Nat) :
    cellOf (fillPoly pts h w) i j ≤ 1 := by
  refine cellOf_le_one_of_rows _ (fun row hrow v hv => ?_) i j
  simp only [fillPoly, List.mem_map] at hrow
  obtain ⟨a, _, hrow⟩ := hrow
  rw [← hrow] at hv
  simp only [List.mem_map] at hv
  obtain ⟨b, _, hv⟩ := hv
  rw [← hv]
  exact fillPolyCell_le_one pts a b

lemma cellOf_zeros_le_one (h w i j : Nat) : cellOf (zerosMask h w) i j ≤ 1 := by
  rw [cellOf_zeros]; simp

lemma lor_le_one {a b : Nat} (ha : a ≤ 1) (hb : b ≤ 1) : Nat.lor a b ≤ 1 := by
  interval_cases a <;> interval_cases b <;> decide

lemma lor_eq_one_iff {a b : Nat} (ha : a ≤ 1) (hb : b ≤ 1) :
    Nat.lor a b = 1 ↔ a = 1 ∨ b = 1 := by
  interval_cases a <;> interval_cases b <;> decide

/-! ## `bitwise_or` lemmas -/

lemma getD_zipWith_lor (ra rb : List Nat) (j : Nat) (hl : ra.length = rb.length) :
    (List.zipWith Nat.lor ra rb).getD j 0 =
      Nat.lor (ra.getD j 0) (rb.getD j 0) := by
  induction ra generalizing rb j with
  | nil =>
    have hrb : rb = [] := by cases rb <;> simp_all
    subst hrb
    simp only [List.zipWith_nil_right]
    rw [@List.getD_eq_default Nat [] 0 j (by simp)]
    decide
  | cons x t ih =>
    cases rb with
    | nil => simp at hl
    | cons y s =>
      cases j with
      | zero => simp
      | succ n =>
        simp only [List.zipWith_cons_cons, List.getD_cons_succ]
        exact ih s n (by simpa using hl)

lemma getD_eq_getElem_of_lt {α : Type} (l : List α) (i : Nat) (d : α)
    (hi : i < l.length) : l.getD i d = l[i] := by
  rw [List.getD_eq_getElem?_getD, List.getElem?_eq_getElem hi, Option.getD_some]

lemma cellOf_or (a b : Mask) (h w : Nat) (ha : hasDims a h w)
    (hb : hasDims b h w) (i j : Nat) :
    cellOf (bitwise_or a b) i j = Nat.lor (cellOf a i j) (cellOf b i j) := by
  unfold cellOf bitwise_or
  rcases Nat.lt_or_ge i h with hi | hi
  · have hia : i < a.length := by rw [ha.1]; exact hi
    have hib : i < b.length := by rw [hb.1]; exact hi
    have hiz : i < (List.zipWith (List.zipWith Nat.lor) a b).length := by
      rw [List.length_zipWith, ha.1, hb.1]; simpa using hi
    rw [getD_eq_getElem_of_lt _ _ _ hiz, getD_eq_getElem_of_lt _ _ _ hia,
      getD_eq_getElem_of_lt _ _ _ hib, List.getElem_zipWith]
    exact getD_zipWith_lor _ _ j
      (by rw [ha.2 _ (List.getElem_mem hia), hb.2 _ (List.getElem_mem hib)])
  · have hza : a.length ≤ i := by rw [ha.1]; exact hi
    have hzb : b.length ≤ i := by rw [hb.1]; exact hi
    have hzz : (List.zipWith (List.zipWith Nat.lor) a b).length ≤ i := by
      rw [List.length_zipWith, ha.1, hb.1]; simpa using hi
    rw [List.getD_eq_default _ _ hzz, List.getD_eq_default _ _ hza,
      List.getD_eq_default _ _ hzb, @List.getD_eq_default Nat [] 0 j (by simp)]
    decide

lemma hasDims_or (a b : Mask) (h w : Nat) (ha : hasDims a h w)
    (hb : hasDims b h w) : hasDims (bitwise_or a b) h w := by
  constructor
  · rw [bitwise_or, List.length_zipWith, ha.1, hb.1]; simp
  · intro row hrow
    rw [List.mem_iff_getElem] at hrow
    obtain ⟨n, hn, hrow⟩ := hrow
    have hna : n < a.length := by
      rw [bitwise_or, List.length_zipWith, ha.1, hb.1] at hn; rw [ha.1]; simpa using hn
    have hnb : n < b.length := by rw [hb.1, ← ha.1]; exact hna
    rw [← hrow]
    show (List.zipWith (List.zipWith Nat.lor) a b)[n].length = w
    rw [List.getElem_zipWith, List.length_zipWith,
      ha.2 _ (List.getElem_mem hna), hb.2 _ (List.getElem_mem hnb)]
    simp

lemma zipWith_lor_comm (a b : List Nat) :
    List.zipWith Nat.lor a b = List.zipWith Nat.lor b a := by
  induction a generalizing b with
  | nil => cases b <;> simp
  | cons x t ih =>
    cases b with
    | nil => simp
    | cons y s =>
      rw [List.zipWith_cons_cons, List.zipWith_cons_cons, ih s,
        show Nat.lor x y = Nat.lor y x from Nat.lor_comm x y]

lemma zipWith_lor_assoc (a b c : List Nat) :
    List.zipWith Nat.lor (List.zipWith Nat.lor a b) c =
      List.zipWith Nat.lor a (List.zipWith Nat.lor b c) := by
  induction a generalizing b c with
  | nil => simp
  | cons x t ih =>
    cases b with
    | nil => simp
    | cons y s =>
      cases c with
      | nil => simp
      | cons z r =>
        simp only [List.zipWith_cons_cons]
        rw [ih s r, show Nat.lor (Nat.lor x y) z = Nat.lor x (Nat.lor y z) from
          Nat.lor_assoc x y z]

lemma bitwise_or_comm (a b : Mask) : bitwise_or a b = bitwise_or b a := by
  unfold bitwise_or
  induction a generalizing b with
  | nil => cases b <;> simp
  | cons x t ih =>
    cases b with
    | nil => simp
    | cons y s => simp [zipWith_lor_comm, ih]

lemma bitwise_or_assoc (a b c : Mask) :
    bitwise_or (bitwise_or a b) c = bitwise_or a (bitwise_or b c) := by
  unfold bitwise_or
  induction a generalizing b c with
  | nil => simp
  | cons x t ih =>
    cases b with
    | nil => simp
    | cons y s =>
      cases c with
      | nil => simp
      | cons z r => simp [zipWith_lor_assoc, ih]

lemma bitwise_or_right_comm (s a b : Mask) :
    bitwise_or (bitwise_or s a) b = bitwise_or (bitwise_or s b) a := by
  rw [bitwise_or_assoc, bitwise_or_assoc, bitwise_or_comm a b]

lemma zipWith_lor_zeros (w : Nat) (row : List Nat) (hrw : row.length = w) :
    List.zipWith Nat.lor (List.replicate w 0) row = row := by
  induction row generalizing w with
  | nil => simp
  | cons v vt ihr =>
    cases w with
    | zero => simp at hrw
    | succ k =>
      simp only [List.replicate_succ, List.zipWith_cons_cons]
      rw [show Nat.lor 0 v = v from Nat.zero_or v, ihr k (by simpa using hrw)]

lemma bitwise_or_zeros (h w : Nat) (g : Mask) (hg : hasDims g h w) :
    bitwise_or (zerosMask h w) g = g := by
  obtain ⟨hlen, hrows⟩ := hg
  unfold bitwise_or zerosMask
  induction g generalizing h with
  | nil => simp
  | cons row t ih =>
    cases h with
    | zero => simp at hlen
    | succ n =>
      simp only [List.replicate_succ, List.zipWith_cons_cons]
      rw [zipWith_lor_zeros w row (hrows row (List.mem_cons_self row t)),
        ih n (by simpa using hlen) (fun r hr => hrows r (List.mem_cons_of_mem row hr))]

/-! ## Characterization of the OR-fold of lines 88-93 -/

lemma orFoldM_ok (h w : Nat) (segs : List (List Int)) :
    ∀ (acc m : Mask), hasDims acc h w → (∀ i j, cellOf acc i j ≤ 1) →
    List.foldlM
      (fun acc seg => (create_binary_mask seg h w).map (fun mm => bitwise_or acc mm))
      acc segs = Except.ok m →
    hasDims m h w ∧ (∀ i j, cellOf m i j ≤ 1) ∧
    ∀ i j, i < h → j < w →
      (cellOf m i j = 1 ↔ cellOf acc i j = 1 ∨
        ∃ seg ∈ segs, ∃ pts, reshapePairs seg = some pts ∧ fillPolyCell pts i j = 1) := by
  induction segs with
  | nil =>
    intro acc m hd hb hok
    rw [List.foldlM_nil, pure_eq_ok] at hok
    cases hok
    exact ⟨hd, hb, fun i j _ _ => by simp⟩
  | cons s rest ih =>
    intro acc m hd hb hok
    rw [List.foldlM_cons] at hok
    cases hcs : reshapePairs s with
    | none =>
      rw [show create_binary_mask s h w = Except.error (Err.malformedPolygon s) by
          unfold create_binary_mask; rw [hcs], map_error, error_bind] at hok
      cases hok
    | some pts =>
      rw [show create_binary_mask s h w = Except.ok (fillPoly pts h w) by
          unfold create_binary_mask; rw [hcs], map_ok, ok_bind] at hok
      have hd1 : hasDims (bitwise_or acc (fillPoly pts h w)) h w :=
        hasDims_or _ _ h w hd (hasDims_fillPoly pts h w)
      have hb1 : ∀ i j, cellOf (bitwise_or acc (fillPoly pts h w)) i j ≤ 1 := by
        intro i j
        rw [cellOf_or acc (fillPoly pts h w) h w hd (hasDims_fillPoly pts h w) i j]
        exact lor_le_one (hb i j) (cellOf_fillPoly_le_one pts h w i j)
      obtain ⟨hdm, hbm, hch⟩ := ih (bitwise_or acc (fillPoly pts h w)) m hd1 hb1 hok
      refine ⟨hdm, hbm, fun i j hi hj => ?_⟩
      rw [hch i j hi hj]
      have hacc1 : cellOf (bitwise_or acc (fillPoly pts h w)) i j = 1 ↔
          cellOf acc i j = 1 ∨ fillPolyCell pts i j = 1 := by
        rw [cellOf_or acc (fillPoly pts h w) h w hd (hasDims_fillPoly pts h w) i j,
          cellOf_fillPoly pts h w i j hi hj]
        exact lor_eq_one_iff (hb i j) (fillPolyCell_le_one pts i j)
      rw [hacc1]
      constructor
      · rintro ((hA | hF) | hrest)
        · exact Or.inl hA
        · exact Or.inr ⟨s, List.mem_cons_self s rest, pts, hcs, hF⟩
        · obtain ⟨seg, hseg, p2⟩ := hrest
          exact Or.inr ⟨seg, List.mem_cons_of_mem _ hseg, p2⟩
      · rintro (hA | ⟨seg, hseg, pts2, hp2, hf2⟩)
        · exact Or.inl (Or.inl hA)
        · rcases List.mem_cons.mp hseg with rfl | hseg2
          · rw [hcs] at hp2
            cases hp2
            exact Or.inl (Or.inr hf2)
          · exact Or.inr ⟨seg, hseg2, pts2, hp2, hf2⟩

/-- Success of `buildCombinedMask` pins down the mask: correct dimensions,
0/1 cells, and each in-range cell is 1 exactly when some polygon of some
annotation rasterizes to 1 there. -/
lemma buildCombinedMask_ok_spec (anns : List AnnRec) (h w : Nat) (m : Mask)
    (hok : buildCombinedMask anns h w = Except.ok m) :
    hasDims m h w ∧ (∀ i j, cellOf m i j ≤ 1) ∧
    ∀ i j, i < h → j < w →
      (cellOf m i j = 1 ↔ ∃ ann ∈ anns, ∃ seg ∈ ann.segmentation, ∃ pts,
        reshapePairs seg = some pts ∧ fillPolyCell pts i j = 1) := by
  obtain ⟨hd, hb, hch⟩ := orFoldM_ok h w (segsOf anns) (zerosMask h w) m
    (hasDims_zeros h w) (fun i j => cellOf_zeros_le_one h w i j) hok
  refine ⟨hd, hb, fun i j hi hj => ?_⟩
  rw [hch i j hi hj, cellOf_zeros]
  constructor
  · rintro (h01 | ⟨seg, hseg, hrest⟩)
    · exact absurd h01 (by decide)
    · simp only [segsOf, List.mem_flatten, List.mem_map] at hseg
      obtain ⟨l, ⟨ann, hann, hl⟩, hsl⟩ := hseg
      exact ⟨ann, hann, seg, hl ▸ hsl, hrest⟩
  · rintro ⟨ann, hann, seg, hseg, hrest⟩
    refine Or.inr ⟨seg, ?_, hrest⟩
    simp only [segsOf, List.mem_flatten, List.mem_map]
    exact ⟨ann.segmentation, ⟨ann, hann, rfl⟩, hseg⟩

/-! ## Outcome vocabulary and step characterizations -/

lemma countOutcomes_nil (c : String) : countOutcomes [] c = 0 := rfl

lemma countOutcomes_cons (o : Outcome) (l : List Outcome) (c : String) :
    countOutcomes (o :: l) c =
      (if destClass o == some c then 1 else 0) + countOutcomes l c := by
  unfold countOutcomes
  rw [List.filter_cons]
  split <;> simp_all
  omega

lemma countOutcomes_append (l1 l2 : List Outcome) (c : String) :
    countOutcomes (l1 ++ l2) c = countOutcomes l1 c + countOutcomes l2 c := by
  induction l1 with
  | nil => simp [countOutcomes_nil, countOutcomes]
  | cons o t ih => rw [List.cons_append, countOutcomes_cons, countOutcomes_cons, ih]; omega

/-- A successful iteration of the annotated-image loop is either a multi-class
skip (several distinct category ids; the state changes only by the recorded
decision) or a single-class assignment (one copy event, one count increment,
one mask write). -/
lemma processLabeled_ok_cases (out imd : String) (lk : Lookups) (st : RunResult)
    (image_id : Nat) (anns : List AnnRec) (st' : RunResult)
    (hok : processLabeled out imd lk st (image_id, anns) = Except.ok st') :
    ((anns.map (fun a => a.category_id)).dedup.length > 1 ∧
      ∃ fn, dlookup lk.image_id_to_file image_id = some fn ∧
        st' = { st with outcomes := st.outcomes ++ [Outcome.skippedMultiClass fn] })
    ∨ (∃ c cn fn h w m,
        (anns.map (fun a => a.category_id)).dedup = [c] ∧
        dlookup lk.category_map c = some cn ∧
        dlookup lk.image_id_to_file image_id = some fn ∧
        dlookup lk.image_id_to_size image_id = some (h, w) ∧
        buildCombinedMask anns h w = Except.ok m ∧
        st' = { class_counts := incr st.class_counts cn,
                copies := st.copies ++ [⟨[imd, fn], [out, cn, "images", fn]⟩],
                maskWrites := st.maskWrites ++
                  [([out, cn, "masks", splitextBase fn ++ ".png"], scale255 m)],
                outcomes := st.outcomes ++ [Outcome.assignedToClass fn cn m] }) := by
  unfold processLabeled at hok
  simp only at hok
  split at hok
  · split at hok
    · cases hok
    · next fn hfn =>
      cases hok
      exact Or.inl ⟨by assumption, fn, hfn, rfl⟩
  · next hle =>
    split at hok
    · cases hok
    · next c tail hdedup =>
      have htail : tail = [] := by
        rw [hdedup] at hle
        simp only [List.length_cons, gt_iff_lt, not_lt] at hle
        exact List.eq_nil_of_length_eq_zero (by omega)
      subst htail
      split at hok
      · cases hok
      · next cn hcn =>
        split at hok
        · cases hok
        · next fn hfn =>
          split at hok
          · cases hok
          · next hw hhw =>
            split at hok
            · cases hok
            · next m hm =>
              cases hok
              exact Or.inr ⟨c, cn, fn, hw.1, hw.2, m, hdedup, hcn, hfn,
                by rw [← hhw], by rw [← hm], rfl⟩

lemma copiesOf_nil (out imd : String) : copiesOf out imd [] = [] := rfl

lemma copiesOf_cons (out imd : String) (o : Outcome) (l : List Outcome) :
    copiesOf out imd (o :: l) = outcomeCopies out imd o ++ copiesOf out imd l := by
  simp [copiesOf]

lemma maskWritesOf_cons (out : String) (o : Outcome) (l : List Outcome) :
    maskWritesOf out (o :: l) = outcomeMasks out o ++ maskWritesOf out l := by
  simp [maskWritesOf]

lemma incr_apply (f : String → Nat) (c x : String) :
    incr f c x = f x + (if x = c then 1 else 0) := by
  unfold incr; split <;> simp

/-- Each successful iteration of the annotated-image loop appends exactly one
decision, whose copy, count, and mask effects are those of `outcomeCopies`,
`destClass`, and `outcomeMasks`. -/
lemma processLabeled_ok_delta (out imd : String) (lk : Lookups) (st : RunResult)
    (image_id : Nat) (anns : List AnnRec) (st' : RunResult)
    (hok : processLabeled out imd lk st (image_id, anns) = Except.ok st') :
    ∃ o, st'.outcomes = st.outcomes ++ [o] ∧
      st'.copies = st.copies ++ outcomeCopies out imd o ∧
      st'.maskWrites = st.maskWrites ++ outcomeMasks out o ∧
      ∀ c, st'.class_counts c = st.class_counts c +
        (if destClass o == some c then 1 else 0) := by
  rcases processLabeled_ok_cases out imd lk st image_id anns st' hok with
    ⟨_, fn, _, hst⟩ | ⟨c0, cn, fn, h, w, m, _, _, _, _, _, hst⟩
  · refine ⟨Outcome.skippedMultiClass fn, ?_, ?_, ?_, ?_⟩ <;> subst hst <;>
      simp [outcomeCopies, outcomeMasks, destClass]
  · refine ⟨Outcome.assignedToClass fn cn m, ?_, ?_, ?_, ?_⟩ <;> subst hst <;>
      simp only [outcomeCopies, outcomeMasks, destClass]
    intro c
    rw [incr_apply]
    by_cases hc : c = cn
    · subst hc; simp
    · simp [hc, Ne.symm hc]

/-- Phase-2 invariant: a successful annotated-image loop run appends one
decision per entry; final copies, mask writes, and counts are the initial
ones plus those induced by the appended decisions. -/
lemma labeledPhase_ok_spec (out imd : String) (lk : Lookups) :
    ∀ (entries : List (Nat × List AnnRec)) (st res : RunResult),
    labeledPhase out imd lk entries st = Except.ok res →
    ∃ new, res.outcomes = st.outcomes ++ new ∧
      res.copies = st.copies ++ copiesOf out imd new ∧
      res.maskWrites = st.maskWrites ++ maskWritesOf out new ∧
      ∀ c, res.class_counts c = st.class_counts c + countOutcomes new c := by
  intro entries
  induction entries with
  | nil =>
    intro st res hok
    rw [labeledPhase, List.foldlM_nil, pure_eq_ok] at hok
    cases hok
    exact ⟨[], by simp, by simp [copiesOf], by simp [maskWritesOf],
      fun c => by simp [countOutcomes_nil]⟩
  | cons e t ih =>
    intro st res hok
    rw [labeledPhase, List.foldlM_cons] at hok
    obtain ⟨iid, anns⟩ := e
    cases hstep : processLabeled out imd lk st (iid, anns) with
    | error err => rw [hstep, error_bind] at hok; cases hok
    | ok st1 =>
      rw [hstep, ok_bind] at hok
      obtain ⟨o, ho1, ho2, ho3, ho4⟩ :=
        processLabeled_ok_delta out imd lk st iid anns st1 hstep
      obtain ⟨new, hn1, hn2, hn3, hn4⟩ := ih st1 res hok
      refine ⟨o :: new, ?_, ?_, ?_, fun c => ?_⟩
      · rw [hn1, ho1, List.append_assoc]; rfl
      · rw [hn2, ho2, copiesOf_cons, List.append_assoc]
      · rw [hn3, ho3, maskWritesOf_cons, List.append_assoc]
      · rw [hn4 c, ho4 c, countOutcomes_cons]; omega

/-- Phase-1 invariant (source lines 47-54): the unlabeled-image loop appends
exactly one `clean` copy and one `clean` count increment per image absent
from the grouped annotations, and writes no mask. -/
lemma unlabeledPhase_spec (out imd : String) (ia : List (Nat × List AnnRec)) :
    ∀ (images : List ImageRec) (st : RunResult),
    (unlabeledPhase out imd ia images st).outcomes =
      st.outcomes ++ unlabeledOutcomes ia images ∧
    (unlabeledPhase out imd ia images st).copies =
      st.copies ++ copiesOf out imd (unlabeledOutcomes ia images) ∧
    (unlabeledPhase out imd ia images st).maskWrites = st.maskWrites ∧
    ∀ c, (unlabeledPhase out imd ia images st).class_counts c =
      st.class_counts c + countOutcomes (unlabeledOutcomes ia images) c := by
  intro images
  induction images with
  | nil =>
    intro st
    refine ⟨by simp [unlabeledPhase, unlabeledOutcomes], ?_, rfl, fun c => ?_⟩
    · simp [unlabeledPhase, unlabeledOutcomes, copiesOf]
    · simp [unlabeledPhase, unlabeledOutcomes, countOutcomes]
  | cons img t ih =>
    intro st
    have hstep : unlabeledPhase out imd ia (img :: t) st =
        unlabeledPhase out imd ia t (processUnlabeled out imd ia st img) := rfl
    rw [hstep]
    cases hmem : dmem ia img.id with
    | true =>
      have hfu : unlabeledOutcomes ia (img :: t) = unlabeledOutcomes ia t := by
        simp [unlabeledOutcomes, List.filter_cons, hmem]
      have hpu : processUnlabeled out imd ia st img = st := by
        unfold processUnlabeled; rw [hmem]; simp
      rw [hpu]
      obtain ⟨ih1, ih2, ih3, ih4⟩ := ih st
      exact ⟨by rw [ih1, hfu], by rw [ih2, hfu], ih3, fun c => by rw [ih4, hfu]⟩
    | false =>
      have hfu : unlabeledOutcomes ia (img :: t) =
          Outcome.unlabeled img.file_name :: unlabeledOutcomes ia t := by
        simp [unlabeledOutcomes, List.filter_cons, hmem]
      have hpu : processUnlabeled out imd ia st img =
          { st with
            copies := st.copies ++ [⟨[imd, img.file_name], [out, "clean", img.file_name]⟩],
            class_counts := incr st.class_counts "clean",
            outcomes := st.outcomes ++ [Outcome.unlabeled img.file_name] } := by
        unfold processUnlabeled; rw [hmem]; simp
      rw [hpu]
      obtain ⟨ih1, ih2, ih3, ih4⟩ := ih
        { st with
          copies := st.copies ++ [⟨[imd, img.file_name], [out, "clean", img.file_name]⟩],
          class_counts := incr st.class_counts "clean",
          outcomes := st.outcomes ++ [Outcome.unlabeled img.file_name] }
      refine ⟨?_, ?_, by rw [ih3], fun c => ?_⟩
      · rw [ih1, hfu]; simp
      · rw [ih2, hfu, copiesOf_cons]
        simp [outcomeCopies]
      · rw [ih4 c, hfu, countOutcomes_cons]
        show incr st.class_counts "clean" c + countOutcomes (unlabeledOutcomes ia t) c = _
        rw [incr_apply]
        have hdc : (destClass (Outcome.unlabeled img.file_name) == some c) =
            (decide (c = "clean")) := by
          by_cases hc : c = "clean"
          · subst hc; simp [destClass]
          · simp [destClass, hc, Ne.symm hc]
        rw [hdc]
        by_cases hc : c = "clean"
        · simp [hc]; omega
        · simp [hc]

lemma copiesOf_append (out imd : String) (l1 l2 : List Outcome) :
    copiesOf out imd (l1 ++ l2) = copiesOf out imd l1 ++ copiesOf out imd l2 := by
  simp [copiesOf]

lemma maskWritesOf_append (out : String) (l1 l2 : List Outcome) :
    maskWritesOf out (l1 ++ l2) = maskWritesOf out l1 ++ maskWritesOf out l2 := by
  simp [maskWritesOf]

lemma maskWritesOf_unlabeledOutcomes (out : String)
    (ia : List (Nat × List AnnRec)) (images : List ImageRec) :
    maskWritesOf out (unlabeledOutcomes ia images) = [] := by
  induction images with
  | nil => rfl
  | cons img t ih =>
    unfold unlabeledOutcomes at ih ⊢
    rw [List.filter_cons]
    split
    · rw [List.map_cons, maskWritesOf_cons, ih]
      rfl
    · exact ih

/-- A successful full run is fully described by its decision list: the copy
events, mask writes, and final counts are exactly those induced by the
outcomes, and the outcomes start with the unlabeled-image decisions. -/
lemma process_ok_spec (coco : CocoData) (imd out : String) (res : RunResult)
    (hok : process_coco_dataset coco imd out = Except.ok res) :
    (∃ labeledNew,
      res.outcomes =
        unlabeledOutcomes (buildImageAnns coco.annotations) coco.images ++ labeledNew) ∧
    res.copies = copiesOf out imd res.outcomes ∧
    res.maskWrites = maskWritesOf out res.outcomes ∧
    ∀ c, res.class_counts c = countOutcomes res.outcomes c := by
  rw [show process_coco_dataset coco imd out =
      labeledPhase out imd (mkLookups coco) (buildImageAnns coco.annotations)
        (unlabeledPhase out imd (buildImageAnns coco.annotations) coco.images
          initState) from rfl] at hok
  obtain ⟨u1, u2, u3, u4⟩ :=
    unlabeledPhase_spec out imd (buildImageAnns coco.annotations) coco.images initState
  obtain ⟨new, hn1, hn2, hn3, hn4⟩ :=
    labeledPhase_ok_spec out imd (mkLookups coco) (buildImageAnns coco.annotations)
      (unlabeledPhase out imd (buildImageAnns coco.annotations) coco.images initState)
      res hok
  rw [u1] at hn1
  rw [u2] at hn2
  rw [u3] at hn3
  have houtc : res.outcomes =
      unlabeledOutcomes (buildImageAnns coco.annotations) coco.images ++ new := by
    rw [hn1]; simp [initState]
  refine ⟨⟨new, houtc⟩, ?_, ?_, fun c => ?_⟩
  · rw [hn2, houtc, copiesOf_append]
    simp [initState]
  · rw [hn3, houtc, maskWritesOf_append, maskWritesOf_unlabeledOutcomes]
    simp [initState]
  · rw [hn4 c, u4 c, houtc, countOutcomes_append]
    simp [initState]

/-! ## Dictionary and dedup helper lemmas -/

lemma dlookup_dinsert {α : Type} (d : List (Nat × α)) (k k2 : Nat) (v : α) :
    dlookup (dinsert d k v) k2 = if k2 = k then some v else dlookup d k2 := by
  induction d with
  | nil =>
    show (if k = k2 then some v else dlookup [] k2) =
      if k2 = k then some v else dlookup [] k2
    by_cases hq : k2 = k
    · subst hq; simp
    · rw [if_neg (fun h => hq h.symm), if_neg hq]
  | cons p rest ih =>
    obtain ⟨k3, v3⟩ := p
    by_cases h3 : k3 = k
    · subst h3
      show dlookup (if k3 = k3 then (k3, v) :: rest else (k3, v3) :: dinsert rest k3 v) k2 = _
      rw [if_pos rfl]
      show (if k3 = k2 then some v else dlookup rest k2) = _
      by_cases hq : k2 = k3
      · subst hq; simp [dlookup]
      · rw [if_neg (fun h => hq h.symm), if_neg hq]
        show _ = if k3 = k2 then some v3 else dlookup rest k2
        rw [if_neg (fun h => hq h.symm)]
    · show dlookup (if k3 = k then (k3, v) :: rest else (k3, v3) :: dinsert rest k v) k2 = _
      rw [if_neg h3]
      show (if k3 = k2 then some v3 else dlookup (dinsert rest k v) k2) = _
      by_cases hq : k3 = k2
      · subst hq
        rw [if_pos rfl, if_neg h3]
        show _ = if k3 = k3 then some v3 else dlookup rest k3
        rw [if_pos rfl]
      · rw [if_neg hq, ih]
        by_cases hk : k2 = k
        · rw [if_pos hk, if_pos hk]
        · rw [if_neg hk, if_neg hk]
          show _ = if k3 = k2 then some v3 else dlookup rest k2
          rw [if_neg hq]

lemma dedup_eq_single_of_all_eq {α : Type} [DecidableEq α] (c : α) :
    ∀ l : List α, l ≠ [] → (∀ x ∈ l, x = c) → l.dedup = [c] := by
  intro l
  induction l with
  | nil => intro h; cases h rfl
  | cons a t ih =>
    intro _ hall
    have ha : a = c := hall a (List.mem_cons_self a t)
    subst ha
    cases t with
    | nil => simp
    | cons b s =>
      have ht : (b :: s).dedup = [a] :=
        ih (by simp) (fun x hx => hall x (List.mem_cons_of_mem _ hx))
      have hb : b = a := (hall b (by simp)).trans rfl
      have hmem : a ∈ b :: s := by rw [hb]; exact List.mem_cons_self a s
      rw [List.dedup_cons_of_mem hmem, ht]

lemma all_eq_of_dedup_eq_single {α : Type} [DecidableEq α] (c : α) (l : List α)
    (h : l.dedup = [c]) : ∀ x ∈ l, x = c := by
  intro x hx
  have : x ∈ l.dedup := List.mem_dedup.mpr hx
  rw [h] at this
  simpa using this

/-- Every annotation record ends up in the group of its own `image_id`,
whatever that id refers to. -/
lemma buildImageAnns_mem_aux :
    ∀ (annotations : List AnnRec) (d : List (Nat × List AnnRec)) (ann : AnnRec),
    (ann ∈ annotations ∨ ann ∈ (dlookup d ann.image_id).getD []) →
    ann ∈ (dlookup
      (annotations.foldl
        (fun d a => dinsert d a.image_id (((dlookup d a.image_id).getD []) ++ [a])) d)
      ann.image_id).getD [] := by
  intro annotations
  induction annotations with
  | nil =>
    intro d ann h
    rcases h with h | h
    · cases h
    · exact h
  | cons a t ih =>
    intro d ann h
    rw [List.foldl_cons]
    apply ih
    rcases h with hmem | hd
    · rcases List.mem_cons.mp hmem with rfl | ht
      · right
        rw [dlookup_dinsert]
        simp
      · left; exact ht
    · right
      rw [dlookup_dinsert]
      by_cases hk : ann.image_id = a.image_id
      · rw [if_pos hk, Option.getD_some]
        rw [hk] at hd
        exact List.mem_append_left _ hd
      · rw [if_neg hk]
        exact hd

lemma reshapePairs_eq_none_iff (l : List Int) :
    reshapePairs l = none ↔ l.length % 2 = 1 := by
  induction l using reshapePairs.induct with
  | case1 => simp [reshapePairs]
  | case2 x => simp [reshapePairs]
  | case3 x y rest ih =>
    simp only [reshapePairs, List.length_cons]
    rw [show rest.length + 1 + 1 = rest.length + 2 from rfl, Nat.add_mod_right]
    rw [← ih]
    cases reshapePairs rest <;> simp

lemma find?_or_append {α : Type} (p : α → Bool) :
    ∀ (l1 l2 : List α), (l1 ++ l2).find? p = Option.or (l1.find? p) (l2.find? p) := by
  intro l1 l2
  induction l1 with
  | nil => simp
  | cons a t ih =>
    by_cases hp : p a
    · rw [List.cons_append, List.find?_cons_of_pos _ hp, List.find?_cons_of_pos _ hp]
      rfl
    · rw [List.cons_append, List.find?_cons_of_neg _ (by simpa using hp),
        List.find?_cons_of_neg _ (by simpa using hp), ih]

/-- The dictionary comprehension of line 28: on duplicate ids the later record
silently wins (no error); lookup returns the last matching record's name. -/
lemma dlookup_buildFileMap (k : Nat) :
    ∀ (images : List ImageRec) (d0 : List (Nat × String)),
    dlookup (images.foldl (fun d img => dinsert d img.id img.file_name) d0) k =
      Option.or
        ((images.reverse.find? (fun i => i.id == k)).map (fun i => i.file_name))
        (dlookup d0 k) := by
  intro images
  induction images with
  | nil => intro d0; simp
  | cons img t ih =>
    intro d0
    rw [List.foldl_cons, ih (dinsert d0 img.id img.file_name), List.reverse_cons,
      find?_or_append, dlookup_dinsert]
    cases hfind : t.reverse.find? (fun i => i.id == k) with
    | some i0 => rfl
    | none =>
      by_cases hk : img.id = k
      · rw [show ([img].find? (fun i => i.id == k)) = some img by
            simp [List.find?_cons_of_pos, hk]]
        rw [if_pos hk.symm]
        rfl
      · rw [show ([img].find? (fun i => i.id == k)) = none by
            simp [List.find?_cons_of_neg, hk]]
        rw [if_neg (fun h => hk h.symm)]
        rfl

/-- The `clean` count key is shared: it counts unlabeled images together with
images assigned to any category literally named `clean`. -/
lemma countOutcomes_clean (l : List Outcome) :
    countOutcomes l "clean" =
      (l.filter isUnlabeledB).length +
        (l.filter (isAssignedToB "clean")).length := by
  induction l with
  | nil => rfl
  | cons o t ih =>
    rw [countOutcomes_cons, List.filter_cons, List.filter_cons, ih]
    cases o with
    | unlabeled fn => simp [destClass, isUnlabeledB, isAssignedToB]; omega
    | assignedToClass fn cn m =>
      by_cases hcn : cn = "clean"
      · subst hcn; simp [destClass, isUnlabeledB, isAssignedToB]; omega
      · simp [destClass, isUnlabeledB, isAssignedToB, hcn]
    | skippedMultiClass fn => simp [destClass, isUnlabeledB, isAssignedToB]

lemma mem_copiesOf (out imd : String) (l : List Outcome) (ev : CopyEvent) :
    ev ∈ copiesOf out imd l ↔ ∃ o ∈ l, ev ∈ outcomeCopies out imd o := by
  simp only [copiesOf, List.mem_flatten, List.mem_map]
  constructor
  · rintro ⟨l2, ⟨o, ho, rfl⟩, hev⟩
    exact ⟨o, ho, hev⟩
  · rintro ⟨o, ho, hev⟩
    exact ⟨outcomeCopies out imd o, ⟨o, ho, rfl⟩, hev⟩

/-! ## Remaining helper lemmas for the claim theorems -/

lemma copiesOf_map_unlabeled (out imd : String) :
    ∀ (l : List ImageRec),
    copiesOf out imd (l.map (fun i => Outcome.unlabeled i.file_name)) =
      l.map (fun i => CopyEvent.mk [imd, i.file_name] [out, "clean", i.file_name]) := by
  intro l
  induction l with
  | nil => rfl
  | cons i t ih => rw [List.map_cons, List.map_cons, copiesOf_cons, ih]; rfl

lemma countOutcomes_map_unlabeled (c : String) :
    ∀ (l : List ImageRec),
    countOutcomes (l.map (fun i => Outcome.unlabeled i.file_name)) c =
      if c = "clean" then l.length else 0 := by
  intro l
  induction l with
  | nil => simp [countOutcomes_nil]
  | cons i t ih =>
    rw [List.map_cons, countOutcomes_cons, ih]
    by_cases hc : c = "clean"
    · subst hc; simp [destClass]; omega
    · simp only [destClass]
      have hbeq : (some "clean" == some c) = false := by
        simp
        exact fun h => hc (Eq.symm h)
      simp only [hbeq]
      simp [hc]

/-! ## Claim theorems -/

/-- C3: every image record whose id is not a key of the grouped-annotation
dictionary yields the `Unlabeled` decision: it is copied to
`<output>/clean/<file_name>` exactly once (one copy event per such image, in
order), the `clean` count is incremented exactly once per such image, and the
loop writes no mask.  Stated for the whole unlabeled-image loop
(source lines 47-54) from an arbitrary starting state. -/
theorem C3_unlabeled_routed_to_clean_once (out imd : String)
    (ia : List (Nat × List AnnRec)) (images : List ImageRec) (st : RunResult) :
    (unlabeledPhase out imd ia images st).outcomes =
      st.outcomes ++ (images.filter (fun i => !(dmem ia i.id))).map
        (fun i => Outcome.unlabeled i.file_name) ∧
    (unlabeledPhase out imd ia images st).copies =
      st.copies ++ (images.filter (fun i => !(dmem ia i.id))).map
        (fun i => CopyEvent.mk [imd, i.file_name] [out, "clean", i.file_name]) ∧
    (unlabeledPhase out imd ia images st).maskWrites = st.maskWrites ∧
    ∀ c, (unlabeledPhase out imd ia images st).class_counts c =
      st.class_counts c +
        (if c = "clean" then (images.filter (fun i => !(dmem ia i.id))).length else 0) := by
  obtain ⟨h1, h2, h3, h4⟩ := unlabeledPhase_spec out imd ia images st
  refine ⟨h1, ?_, h3, fun c => ?_⟩
  · rw [h2]
    unfold unlabeledOutcomes
    rw [copiesOf_map_unlabeled]
  · rw [h4 c]
    unfold unlabeledOutcomes
    rw [countOutcomes_map_unlabeled]

/-- C7: the mask accumulation of lines 88-93, seen as a fold of `bitwise_or`
over a list of grids, is order-independent (any permutation of the grids
folds to the same mask), returns a single grid of the declared dimensions
unchanged, and returns the all-zero grid on no input. -/
theorem C7_accumulate_algebra (h w : Nat) (l1 l2 : List Mask) (g : Mask) :
    (List.Perm l1 l2 → accumulate l1 h w = accumulate l2 h w) ∧
    (hasDims g h w → accumulate [g] h w = g) ∧
    accumulate [] h w = zerosMask h w := by
  refine ⟨fun hp => ?_, fun hg => ?_, rfl⟩
  · haveI : RightCommutative bitwise_or := ⟨bitwise_or_right_comm⟩
    exact hp.foldl_eq (zerosMask h w)
  · show bitwise_or (zerosMask h w) g = g
    exact bitwise_or_zeros h w g hg

/-- Witness for C7 at concrete grids: reordering two 1×1 grids does not
change the accumulated mask, and a single 1×1 grid accumulates to itself. -/
theorem C7_accumulate_algebra_witness :
    accumulate [[[1]], [[0]]] 1 1 = accumulate [[[0]], [[1]]] 1 1 ∧
    accumulate [[[1]]] 1 1 = [[1]] := by
  exact ⟨(C7_accumulate_algebra 1 1 [[[1]], [[0]]] [[[0]], [[1]]] [[1]]).1 (by decide),
    (C7_accumulate_algebra 1 1 [[[1]], [[0]]] [[[0]], [[1]]] [[1]]).2.1 (by decide)⟩

/-- C4 (counterexample): a polygon of only TWO coordinate pairs — fewer than
the three points the claim says must be present — is accepted: the rasterizer
returns a grid instead of signalling a malformed-polygon failure.  The
original raises only on the `reshape((-1, 2))` of an odd-length list;
`cv2.fillPoly` happily draws a degenerate two-point polygon. -/
theorem C4_counterexample :
    create_binary_mask [0, 0, 2, 0] 3 3 =
      Except.ok (fillPoly [(0, 0), (2, 0)] 3 3) ∧
    exceptIsOk (create_binary_mask [0, 0, 2, 0] 3 3) = true := by
  exact ⟨rfl, rfl⟩

/-- C4 (amended): the rasterizer signals the malformed-polygon failure exactly
when the flat coordinate count is odd; for every even-length coordinate list —
including fewer than 3 pairs — it returns a `height × width` grid whose cells
are all 0 or 1. -/
theorem C4_rasterizer_error_condition (seg : List Int) (h w : Nat) :
    (seg.length % 2 = 1 ∧
      create_binary_mask seg h w = Except.error (Err.malformedPolygon seg)) ∨
    (seg.length % 2 = 0 ∧ ∃ m, create_binary_mask seg h w = Except.ok m ∧
      hasDims m h w ∧ ∀ i j, cellOf m i j ≤ 1) := by
  cases hr : reshapePairs seg with
  | none =>
    left
    refine ⟨(reshapePairs_eq_none_iff seg).mp hr, ?_⟩
    unfold create_binary_mask
    rw [hr]
  | some pts =>
    right
    constructor
    · have : ¬ (reshapePairs seg = none) := by rw [hr]; exact fun h => by cases h
      have hodd : ¬ (seg.length % 2 = 1) := fun h2 =>
        this ((reshapePairs_eq_none_iff seg).mpr h2)
      omega
    · refine ⟨fillPoly pts h w, ?_, hasDims_fillPoly pts h w,
        fun i j => cellOf_fillPoly_le_one pts h w i j⟩
      unfold create_binary_mask
      rw [hr]

/-- C5: for a single-class image whose category id is absent from the category
dictionary, the iteration aborts with the dangling-category failure — a
`KeyError` at source line 67 — rather than quietly skipping the image; in
particular the iteration does not succeed, so the failure is distinguishable
from the multi-class skip, which returns a successful skip decision. -/
theorem C5_dangling_category_fatal (out imd : String) (lk : Lookups)
    (st : RunResult) (image_id : Nat) (anns : List AnnRec) (c : Nat)
    (hone : (anns.map (fun a => a.category_id)).dedup = [c])
    (hmissing : dlookup lk.category_map c = none) :
    processLabeled out imd lk st (image_id, anns) =
      Except.error (Err.danglingCategory c) ∧
    exceptIsOk (processLabeled out imd lk st (image_id, anns)) = false := by
  have hmain : processLabeled out imd lk st (image_id, anns) =
      Except.error (Err.danglingCategory c) := by
    unfold processLabeled
    simp only [hone]
    rw [if_neg (by simp)]
    show (match dlookup lk.category_map c with
      | none => Except.error (Err.danglingCategory c)
      | some category_name => _) = _
    rw [hmissing]
  exact ⟨hmain, by rw [hmain]; rfl⟩

/-- Witness for C5: with the category dictionary empty, the single-class
image 1 of category 7 makes the loop iteration fail with the
dangling-category error. -/
theorem C5_dangling_category_fatal_witness :
    processLabeled "o" "i" wLkNoCat initState (1, wAnnsSame) =
      Except.error (Err.danglingCategory 7) ∧
    exceptIsOk (processLabeled "o" "i" wLkNoCat initState (1, wAnnsSame)) = false :=
  C5_dangling_category_fatal "o" "i" wLkNoCat initState 1 wAnnsSame 7
    (by decide) rfl

/-- C1: in a successfully processed iteration of the annotated-image loop, the
image is assigned a class precisely when all its annotation records carry one
and the same category id; and when two annotations disagree, the image is
skipped outright — the recorded decision is the multi-class skip and no copy
event, no mask write, and no count change is produced. -/
theorem C1_single_class_iff_assigned (out imd : String) (lk : Lookups)
    (st : RunResult) (image_id : Nat) (anns : List AnnRec) (st' : RunResult)
    (hok : processLabeled out imd lk st (image_id, anns) = Except.ok st') :
    ((∃ fn cn m, st'.outcomes = st.outcomes ++ [Outcome.assignedToClass fn cn m]) ↔
      ∀ a1 ∈ anns, ∀ a2 ∈ anns, a1.category_id = a2.category_id) ∧
    ((∃ a1 ∈ anns, ∃ a2 ∈ anns, a1.category_id ≠ a2.category_id) →
      (∃ fn, st'.outcomes = st.outcomes ++ [Outcome.skippedMultiClass fn]) ∧
      st'.copies = st.copies ∧ st'.maskWrites = st.maskWrites ∧
      st'.class_counts = st.class_counts) := by
  rcases processLabeled_ok_cases out imd lk st image_id anns st' hok with
    ⟨hgt, fn, hfn, hst⟩ | ⟨c, cn, fn, h, w, m, hdedup, hcn, hfn, hsize, hmask, hst⟩
  · constructor
    · constructor
      · rintro ⟨fn2, cn2, m2, hout⟩
        rw [hst] at hout
        simp at hout
      · intro hall
        exfalso
        have hne : anns.map (fun a => a.category_id) ≠ [] := by
          intro hnil
          rw [hnil] at hgt
          simp at hgt
        obtain ⟨a0, ha0⟩ : ∃ a, a ∈ anns := by
          cases anns with
          | nil => simp at hne
          | cons a t => exact ⟨a, List.mem_cons_self a t⟩
        have hall2 : ∀ x ∈ anns.map (fun a => a.category_id), x = a0.category_id := by
          intro x hx
          obtain ⟨a, ha, rfl⟩ := List.mem_map.mp hx
          exact hall a ha a0 ha0
        have hsingle := dedup_eq_single_of_all_eq a0.category_id _ hne hall2
        rw [hsingle] at hgt
        simp at hgt
    · intro _
      rw [hst]
      exact ⟨⟨fn, rfl⟩, rfl, rfl, rfl⟩
  · have hallc : ∀ a ∈ anns, a.category_id = c := fun a ha =>
      all_eq_of_dedup_eq_single c _ hdedup _ (List.mem_map_of_mem _ ha)
    constructor
    · constructor
      · intro _ a1 h1 a2 h2
        rw [hallc a1 h1, hallc a2 h2]
      · intro _
        rw [hst]
        exact ⟨fn, cn, m, rfl⟩
    · rintro ⟨a1, h1, a2, h2, hne⟩
      exact absurd (by rw [hallc a1 h1, hallc a2 h2]) hne

/-- Witness for C1 at a concrete multi-class image: two annotations of
categories 7 and 8 produce a skip that leaves copies, mask writes, and
counts untouched. -/
theorem C1_single_class_iff_assigned_witness :
    wStSkip.copies = initState.copies ∧
    wStSkip.maskWrites = initState.maskWrites ∧
    wStSkip.class_counts = initState.class_counts := by
  have h := (C1_single_class_iff_assigned "o" "i" wLk initState 1 wAnnsMulti
      wStSkip rfl).2
    ⟨⟨1, 7, [[0, 0, 1, 0, 1, 1]]⟩, by decide,
     ⟨1, 8, [[0, 0, 0, 1, 1, 1]]⟩, by decide, by decide⟩
  exact ⟨h.2.1, h.2.2.1, h.2.2.2⟩

/-- C2: in a successfully processed iteration that assigns an image to a
class, the attached combined mask has exactly the looked-up (height, width)
of the image, holds only 0/1 values, and an in-range cell is 1 exactly when
some polygon of some annotation record of the image rasterizes to 1 there —
the cell-wise OR of all the per-polygon grids. -/
theorem C2_combined_mask_spec (out imd : String) (lk : Lookups)
    (st : RunResult) (image_id : Nat) (anns : List AnnRec) (st' : RunResult)
    (fn cn : String) (m : Mask) (h w : Nat)
    (hok : processLabeled out imd lk st (image_id, anns) = Except.ok st')
    (hout : st'.outcomes = st.outcomes ++ [Outcome.assignedToClass fn cn m])
    (hsize : dlookup lk.image_id_to_size image_id = some (h, w)) :
    hasDims m h w ∧ (∀ i j, cellOf m i j ≤ 1) ∧
    ∀ i j, i < h → j < w →
      (cellOf m i j = 1 ↔ ∃ ann ∈ anns, ∃ seg ∈ ann.segmentation, ∃ pts,
        reshapePairs seg = some pts ∧ fillPolyCell pts i j = 1) := by
  rcases processLabeled_ok_cases out imd lk st image_id anns st' hok with
    ⟨_, fn0, _, hst⟩ | ⟨c, cn0, fn0, h0, w0, m0, hdedup, hcn, hfn, hsize0, hmask, hst⟩
  · rw [hst] at hout
    simp at hout
  · have hsingle : Outcome.assignedToClass fn0 cn0 m0 =
        Outcome.assignedToClass fn cn m := by
      have h2 : st.outcomes ++ [Outcome.assignedToClass fn0 cn0 m0] =
          st.outcomes ++ [Outcome.assignedToClass fn cn m] := by
        rw [← hout, hst]
      simpa using h2
    obtain ⟨rfl, rfl, rfl⟩ := Outcome.assignedToClass.inj hsingle
    rw [hsize0] at hsize
    obtain ⟨rfl, rfl⟩ := Prod.mk.inj (Option.some.inj hsize)
    exact buildCombinedMask_ok_spec anns h0 w0 m0 hmask

/-- Witness for C2 at a concrete assignment: the combined 1×1 mask of
`wAnnsSame` has the image's dimensions. -/
theorem C2_combined_mask_spec_witness : hasDims [[1]] 1 1 :=
  (C2_combined_mask_spec "o" "i" wLk initState 1 wAnnsSame wStA
    "a.jpg" "cat" [[1]] 1 1 rfl rfl rfl).1

/-- C6 (counterexample): building the lookup structures performs no validation
at all.  On an input with a duplicate image id and a duplicate category id the
dictionary comprehensions silently keep the later record, an annotation whose
`image_id`/`category_id` match no record is grouped without complaint, and the
whole duplicate-id run completes successfully — no `DuplicateKeyError` or
`DanglingReferenceError` is signalled while building. -/
theorem C6_counterexample :
    buildFileMap cocoDup.images = [(1, "b.jpg")] ∧
    buildCategoryMap cocoDup.categories = [(5, "y")] ∧
    buildImageAnns [wAnnDangling] = [(99, [wAnnDangling])] ∧
    exceptIsOk (process_coco_dataset cocoDup "i" "o") = true := by
  exact ⟨rfl, rfl, rfl, rfl⟩

/-- C6 (amended): index building never fails; a duplicate image id is resolved
silently, the later record's file name winning the lookup, and every
annotation — dangling or not — is grouped under its own `image_id`. Dangling
references are only detected later, during partitioning (see the C5
theorem for the category side). -/
theorem C6_build_no_validation (images : List ImageRec) (k : Nat)
    (annotations : List AnnRec) (ann : AnnRec) :
    dlookup (buildFileMap images) k =
      ((images.reverse.find? (fun i => i.id == k)).map (fun i => i.file_name)) ∧
    (ann ∈ annotations →
      ann ∈ (dlookup (buildImageAnns annotations) ann.image_id).getD []) := by
  constructor
  · show dlookup
      (images.foldl (fun d img => dinsert d img.id img.file_name) []) k = _
    rw [dlookup_buildFileMap]
    show Option.or _ none = _
    cases (images.reverse.find? (fun i => i.id == k)).map (fun i => i.file_name) <;> rfl
  · intro hmem
    exact buildImageAnns_mem_aux annotations [] ann (Or.inl hmem)

/-- Witness for C6 (amended) at the dangling annotation: it is grouped under
key 99 although no image record has id 99. -/
theorem C6_build_no_validation_witness :
    wAnnDangling ∈ (dlookup (buildImageAnns [wAnnDangling]) 99).getD [] := by
  have h := (C6_build_no_validation [] 0 [wAnnDangling] wAnnDangling).2 (by decide)
  exact h

/-- C8: a failure inside one iteration of the annotated-image loop aborts the
whole loop with that failure — no final counts are produced at all, so counts
are never silently reported wrong; and whenever the loop does succeed, the
final counts are the initial counts plus exactly the counts induced by the
newly appended decisions (one per processed image; the multi-class skip
contributes nothing). -/
theorem C8_no_silent_count_corruption (out imd : String) (lk : Lookups)
    (es1 es2 : List (Nat × List AnnRec)) (e : Nat × List AnnRec)
    (st0 st1 : RunResult) (err : Err)
    (entries : List (Nat × List AnnRec)) (res : RunResult) :
    (labeledPhase out imd lk es1 st0 = Except.ok st1 →
      processLabeled out imd lk st1 e = Except.error err →
      labeledPhase out imd lk (es1 ++ e :: es2) st0 = Except.error err) ∧
    (labeledPhase out imd lk entries st0 = Except.ok res →
      res.outcomes = st0.outcomes ++ res.outcomes.drop st0.outcomes.length ∧
      ∀ c, res.class_counts c = st0.class_counts c +
        countOutcomes (res.outcomes.drop st0.outcomes.length) c) := by
  constructor
  · intro h1 h2
    rw [labeledPhase, List.foldlM_append]
    rw [show List.foldlM (processLabeled out imd lk) st0 es1 = Except.ok st1 from h1]
    rw [ok_bind, List.foldlM_cons, h2, error_bind]
  · intro hok
    obtain ⟨new, hn1, hn2, hn3, hn4⟩ :=
      labeledPhase_ok_spec out imd lk entries st0 res hok
    have hdrop : res.outcomes.drop st0.outcomes.length = new := by
      rw [hn1]
      exact List.drop_left _ _
    rw [hdrop]
    exact ⟨hn1, hn4⟩

/-- Witness for C8: an annotation with an odd-length polygon makes the loop
fail outright with the malformed-polygon error, and a trivially successful
loop leaves the counts described by its (empty) decisions. -/
theorem C8_no_silent_count_corruption_witness :
    labeledPhase "o" "i" wLk ([] ++ (1, wAnnsOdd) :: []) initState =
      Except.error (Err.malformedPolygon [0, 0, 0]) ∧
    initState.class_counts "cat" = initState.class_counts "cat" +
      countOutcomes (initState.outcomes.drop initState.outcomes.length) "cat" := by
  refine ⟨(C8_no_silent_count_corruption "o" "i" wLk [] [] (1, wAnnsOdd)
      initState initState (Err.malformedPolygon [0, 0, 0]) [] initState).1 rfl rfl, ?_⟩
  exact ((C8_no_silent_count_corruption "o" "i" wLk [] [] (1, wAnnsOdd)
      initState initState (Err.malformedPolygon [0, 0, 0]) [] initState).2 rfl).2 "cat"

/-- C9: in a successful run, every class count equals the number of recorded
decisions routed to that class key — one decision per image, however many
annotation records or polygons the image carries (skips count nothing,
unlabeled images count under `clean`). -/
theorem C9_counts_are_per_image (coco : CocoData) (imd out : String)
    (res : RunResult) (hok : process_coco_dataset coco imd out = Except.ok res) :
    ∀ c, res.class_counts c = countOutcomes res.outcomes c :=
  (process_ok_spec coco imd out res hok).2.2.2

/-- Witness for C9: `a.jpg` carries two annotation records with three polygons
in total, yet the `cat` count is the number of `cat` decisions (namely 1). -/
theorem C9_counts_are_per_image_witness :
    wRes9.class_counts "cat" = countOutcomes wRes9.outcomes "cat" :=
  C9_counts_are_per_image wCoco9 "i" "o" wRes9 rfl "cat"

/-- C10: the `clean` count key is shared between unlabeled images and images
assigned to a category literally named `clean`: the reported `clean` count is
the number of unlabeled decisions plus the number of `clean`-assignment
decisions, and both kinds of image are copied under the same top-level
directory `<output>/clean` (unlabeled directly, assigned under `images/`). -/
theorem C10_clean_key_shared (coco : CocoData) (imd out : String)
    (res : RunResult) (hok : process_coco_dataset coco imd out = Except.ok res) :
    res.class_counts "clean" =
      (res.outcomes.filter isUnlabeledB).length +
        (res.outcomes.filter (isAssignedToB "clean")).length ∧
    (∀ fn, Outcome.unlabeled fn ∈ res.outcomes →
      CopyEvent.mk [imd, fn] [out, "clean", fn] ∈ res.copies) ∧
    (∀ fn m, Outcome.assignedToClass fn "clean" m ∈ res.outcomes →
      CopyEvent.mk [imd, fn] [out, "clean", "images", fn] ∈ res.copies) := by
  obtain ⟨_, hcopies, _, hcounts⟩ := process_ok_spec coco imd out res hok
  refine ⟨?_, ?_, ?_⟩
  · rw [hcounts "clean", countOutcomes_clean]
  · intro fn hmem
    rw [hcopies]
    exact (mem_copiesOf out imd res.outcomes _).mpr
      ⟨Outcome.unlabeled fn, hmem, by simp [outcomeCopies]⟩
  · intro fn m hmem
    rw [hcopies]
    exact (mem_copiesOf out imd res.outcomes _).mpr
      ⟨Outcome.assignedToClass fn "clean" m, hmem, by simp [outcomeCopies]⟩

/-- Witness for C10 on `wCoco10` (category 7 named `clean`): the `clean`
count is 1 unlabeled + 1 assigned, and both images' copy events land under
the `clean` top-level directory. -/
theorem C10_clean_key_shared_witness :
    wRes10.class_counts "clean" =
      (wRes10.outcomes.filter isUnlabeledB).length +
        (wRes10.outcomes.filter (isAssignedToB "clean")).length ∧
    CopyEvent.mk ["i", "b.jpg"] ["o", "clean", "b.jpg"] ∈ wRes10.copies ∧
    CopyEvent.mk ["i", "a.jpg"] ["o", "clean", "images", "a.jpg"] ∈ wRes10.copies := by
  refine ⟨(C10_clean_key_shared wCoco10 "i" "o" wRes10 rfl).1,
    (C10_clean_key_shared wCoco10 "i" "o" wRes10 rfl).2.1 "b.jpg" (by decide),
    (C10_clean_key_shared wCoco10 "i" "o" wRes10 rfl).2.2 "a.jpg" [[1]] (by decide)⟩
